import Mathlib

/-!
Shallow embedding of the HTTP engine of this repository
(src/web/http.py, src/web/api_handler.py, src/storage/users_table.py).

Bytes are modelled as `Nat`, byte strings as `List Nat`, and a socket's
readable side as the list of bytes the peer delivered before closing the
connection.  Fallible Python code is embedded as `Except PyErr`.
Python `str` values are Lean `String`s; the embedding of the text
helpers (`split`, `int`, `urllib.parse.unquote`) is faithful on ASCII
input, which is the domain of the wire protocol.
-/

set_option autoImplicit false

namespace Http

/-- The Python exceptions that the embedded code can raise:
`ProtocolError` (proj_types/proto_error.py), `ValueError`
(e.g. `int()` on a non-numeric string, `socket.recv` on a negative size)
and `TypeError` (e.g. `len()` on an object without `__len__`). -/
inductive PyErr where
  | protocolError (msg : String)
  | valueError (msg : String)
  | typeError (msg : String)
  deriving Repr, DecidableEq

/-- Is this exception a `ProtocolError`? -/
def PyErr.isProtocolError : PyErr → Bool
  | PyErr.protocolError _ => true
  | _ => false

/-- Embedding of Python `str.split(sep, maxsplit)` on a character list:
at most `limit` splits are performed, consecutive separators produce
empty fields, and the remainder after the last split is kept whole. -/
def splitCharsLimit (sep : Char) : Nat → List Char → List (List Char)
  | _, [] => [[]]
  | 0, cs => [cs]
  | Nat.succ n, c :: cs =>
    if c = sep then [] :: splitCharsLimit sep n cs
    else
      match splitCharsLimit sep (Nat.succ n) cs with
      | [] => [[c]]
      | p :: ps => (c :: p) :: ps

/-- `s.split(" ", 2)` from `HttpRequest._read_status`. -/
def pySplitSpace2 (s : String) : List String :=
  (splitCharsLimit ' ' 2 s.toList).map (fun cs => String.mk cs)

/-- `s.split("?")` (unbounded) from `HttpRequest._read_status`;
the string length bounds the number of splits. -/
def pySplitQ (s : String) : List String :=
  (splitCharsLimit '?' s.toList.length s.toList).map (fun cs => String.mk cs)

/-- Digit run of a Python integer literal after the optional sign:
digits with single underscores allowed only between digits
(CPython grammar `digit (["_"] digit)*`), accumulated into a `Nat`. -/
def pyDigitsCore : List Char → Nat → Option Nat
  | [], acc => some acc
  | '_' :: c :: cs, acc =>
    if c.isDigit then pyDigitsCore cs (acc * 10 + (c.toNat - 48)) else none
  | '_' :: [], _ => none
  | c :: cs, acc =>
    if c.isDigit then pyDigitsCore cs (acc * 10 + (c.toNat - 48)) else none

/-- A nonempty digit run (first character must be a digit). -/
def pyDigits : List Char → Option Nat
  | [] => none
  | c :: cs => if c.isDigit then pyDigitsCore cs (c.toNat - 48) else none

/-- Embedding of Python `int(s)` on ASCII input: surrounding whitespace
is stripped, one optional sign is allowed, then a nonempty digit run;
anything else raises `ValueError` (here: `none`). -/
def pyInt (s : String) : Option Int :=
  let cs := ((s.toList.dropWhile Char.isWhitespace).reverse.dropWhile
    Char.isWhitespace).reverse
  match cs with
  | '-' :: rest => (pyDigits rest).map (fun n => -(n : Int))
  | '+' :: rest => (pyDigits rest).map (fun n => (n : Int))
  | _ => (pyDigits cs).map (fun n => (n : Int))

/-- Value of an ASCII hex digit, if any. -/
def hexVal : Char → Option Nat
  | c =>
    if c.isDigit then some (c.toNat - 48)
    else if 'a' ≤ c ∧ c ≤ 'f' then some (c.toNat - 97 + 10)
    else if 'A' ≤ c ∧ c ≤ 'F' then some (c.toNat - 65 + 10)
    else none

/-- Embedding of `urllib.parse.unquote` on ASCII input: each `%hh`
escape becomes the character with code `hh`; a `%` not followed by two
hex digits is kept literally.  (Multi-byte UTF-8 escapes are outside
the modelled ASCII domain.) -/
def unquoteChars : List Char → List Char
  | [] => []
  | '%' :: a :: b :: rest =>
    match hexVal a, hexVal b with
    | some x, some y => Char.ofNat (16 * x + y) :: unquoteChars rest
    | _, _ => '%' :: unquoteChars (a :: b :: rest)
  | c :: rest => c :: unquoteChars rest

def unquote (s : String) : String := String.mk (unquoteChars s.toList)

/-- Embedding of Python `str.upper()` on ASCII input: uppercase each
character. -/
def pyUpper (s : String) : String := String.mk (s.toList.map Char.toUpper)

/-- Embedding of Python `str.lower()` on ASCII input: lowercase each
character. -/
def pyLower (s : String) : String := String.mk (s.toList.map Char.toLower)

/-- Modelled from the spec: `constants.HTTP_VERSION` (constants.py is
not under src/); the single supported version string, `HTTP/1.1` as in
the spec's examples. -/
def HTTP_VERSION : String := "HTTP/1.1"

/-- Modelled from the spec: the fixed enumerated verb set
(proj_types/webmethod.py is not under src/); `GET` and `POST` are the
verbs src/web/api_handler.py dispatches on. -/
inductive WebMethod where
  | GET
  | POST
  deriving Repr, DecidableEq

/-- Modelled from the spec: lookup of the method token in the
enumerated verb set; per the spec an unrecognized verb is a protocol
error. -/
def WebMethod.fromString : String → Option WebMethod
  | "GET" => some WebMethod.GET
  | "POST" => some WebMethod.POST
  | _ => none

/-- Result of `HttpRequest._read_status`: the parsed method and the
decoded, query-stripped path. -/
structure StatusLine where
  method : WebMethod
  path : String
  deriving Repr, DecidableEq

/-- Embedding of `HttpRequest._read_status` (src/web/http.py:42-63),
applied to the stripped status line produced by `_read_line`:
split on the first two spaces, require exactly three tokens, check the
version case-insensitively, look the method up in the verb set, keep
the request-target up to the first `?` and percent-decode it. -/
def _read_status (line : String) : Except PyErr StatusLine :=
  match pySplitSpace2 line with
  | [m, t, v] =>
    if pyUpper v ≠ HTTP_VERSION then
      Except.error (PyErr.protocolError
        ("Unknown version " ++ v ++ " could not be recognized!"))
    else
      match WebMethod.fromString m with
      | none =>
        Except.error (PyErr.protocolError
          (m ++ " is not a valid WebMethod"))
      | some meth =>
        Except.ok ⟨meth, unquote ((pySplitQ t).headD "")⟩
  | _ =>
    Except.error (PyErr.protocolError
      "The status line needs three arguments!")

/-! ### Header map

Modelled from the spec: `CaseInsensitiveDict`
(proj_types/case_insensitive_dict.py is not under src/).  A mapping
whose lookups, insertions and overwrites are case-insensitive on the
key while the original case of the last write is preserved, embedded as
an association list. -/

/-- Case normalisation used for key comparison. -/
def ciKey (s : String) : String := pyLower s

/-- The header maps of the embedding: association lists of
name/value pairs. -/
abbrev Headers := List (String × String)

/-- Case-insensitive lookup. -/
def ciGet (m : Headers) (k : String) : Option String :=
  (m.find? (fun p => ciKey p.1 = ciKey k)).map (fun p => p.2)

/-- Python `k in headers`, case-insensitive. -/
def ciContains (m : Headers) (k : String) : Bool :=
  m.any (fun p => ciKey p.1 = ciKey k)

/-- Case-insensitive insert/overwrite: an existing entry with a
case-insensitively equal key is replaced in place (new key case, new
value); otherwise the pair is appended. -/
def ciSet (m : Headers) (k v : String) : Headers :=
  match m with
  | [] => [(k, v)]
  | p :: rest =>
    if ciKey p.1 = ciKey k then (k, v) :: rest
    else p :: ciSet rest k v

/-- Modelled from the spec: the Header Map union used by
`HttpResponse._send_headers` (`defaults | handler_headers`); the
right-hand map's entries win on (case-insensitive) key collision. -/
def ciUnion (l r : Headers) : Headers :=
  r.foldl (fun acc p => ciSet acc p.1 p.2) l

/-- A header map with no two case-insensitively equal keys; every map
built from `ciSet` inserts satisfies this. -/
def ciWF (m : Headers) : Prop :=
  m.Pairwise (fun p q => ciKey p.1 ≠ ciKey q.1)

instance (m : Headers) : Decidable (ciWF m) := by
  unfold ciWF; infer_instance

/-! ### Socket model and `HttpRequest._read_body` -/

/-- The readable side of a connection: the bytes the peer delivered
before closing.  `recv avail n` models a single blocking
`socket.recv(n)` against such a peer: it raises `ValueError` on a
negative size and otherwise returns at most `n` bytes — fewer when the
peer closed after sending fewer (a short read is not an error at the
socket layer). -/
def recv (avail : List Nat) (n : Int) :
    Except PyErr (List Nat × List Nat) :=
  if n < 0 then
    Except.error (PyErr.valueError "negative buffersize in recv")
  else
    Except.ok (avail.take n.toNat, avail.drop n.toNat)

/-- Modelled from the spec: `constants.BUFFERED_CHUNK_SIZE`
(constants.py is not under src/), the configured buffering threshold;
the spec fixes no value, `65536` here. -/
def BUFFERED_CHUNK_SIZE : Nat := 65536

/-- A parsed request body: either fully materialised in memory or a
`DataReceiver` handle bound to the connection and the declared length
(web/socket_data.py is not under src/; per the spec no bytes are read
eagerly for it). -/
inductive Body where
  | mem (bytes : List Nat)
  | receiver (declaredLen : Int)
  deriving Repr, DecidableEq

/-- Embedding of `HttpRequest._read_body` (src/web/http.py:89-112):
no `Content-Length` header means no body; the header value goes
through `int()`, a `ValueError` there becomes a `ProtocolError`; a
length at or above the buffering threshold yields a `DataReceiver`
handle; otherwise a single `recv` of the declared length is stored as
the in-memory body.  Returns the body field and the unread rest of the
socket. -/
def _read_body (headers : Headers) (sock : List Nat) :
    Except PyErr (Option Body × List Nat) :=
  match ciGet headers "Content-Length" with
  | none => Except.ok (none, sock)
  | some v =>
    match pyInt v with
    | none =>
      Except.error (PyErr.protocolError "Content-Length must be a number!")
    | some n =>
      if (BUFFERED_CHUNK_SIZE : Int) ≤ n then
        Except.ok (some (Body.receiver n), sock)
      else
        match recv sock n with
        | Except.error e => Except.error e
        | Except.ok (data, rest) => Except.ok (some (Body.mem data), rest)

/-! ### Codecs and the response serializer -/

/-- Modelled from the spec: a codec descriptor (web/encoding.py is not
under src/): a wire-visible name, a whole-buffer compress, and an
optional streaming (chunked) compressor, modelled as a pure per-chunk
transform. -/
structure Encoding where
  name : String
  compress : List Nat → List Nat
  chunkedCompression : Option (List Nat → List Nat)

/-- A response body: in-memory bytes, or a `DataSender` streaming
handle.  Modelled from the spec: `DataSender` (web/socket_data.py is
not under src/) reads its source in bounded chunks, applying any
attached streaming compressors; per the spec its total length is not
predetermined, so it supports no `len()`. -/
inductive RespBody where
  | mem (bytes : List Nat)
  | sender (chunks : List (List Nat))
      (compressors : List (List Nat → List Nat))

/-- Python truthiness of the body as used by
`if ... not self.body: return` — `b""` is falsy, a `DataSender`
object is truthy. -/
def RespBody.truthy : RespBody → Bool
  | RespBody.mem bs => !bs.isEmpty
  | RespBody.sender _ _ => true

/-- Python `len(body)`: the byte length of an in-memory body; a
`DataSender` has no `__len__`, so `len()` raises `TypeError`. -/
def pyLen : RespBody → Except PyErr Nat
  | RespBody.mem bs => Except.ok bs.length
  | RespBody.sender _ _ =>
    Except.error (PyErr.typeError "object of type DataSender has no len")

/-- Does `n` occur as a contiguous run of `hay`?  (The empty list
occurs in every list.) -/
def hasSubstr (n : List Char) : List Char → Bool
  | [] => n.isEmpty
  | c :: cs => n.isPrefixOf (c :: cs) || hasSubstr n cs

/-- Python `needle in haystack` on strings: substring test, as used by
`encoding.name() not in accept_encoding`. -/
def pyInStr (needle hay : String) : Bool :=
  hasSubstr needle.toList hay.toList

/-- One iteration of the negotiation loop of
`HttpResponse._compress_body` (src/web/http.py:207-224), threading the
body and the list of used codec names.  A codec whose name is not a
substring of `Accept-Encoding` is skipped.  For a `DataSender` body,
`_compress_sender` attaches the streaming compressor when the codec
has one and records the name.  For an in-memory body the whole buffer
is compressed and the result is kept — and the name recorded — unless
it is strictly larger than the current body. -/
def compressOne (acceptEnc : String) (st : RespBody × List String)
    (e : Encoding) : RespBody × List String :=
  if ¬ pyInStr e.name acceptEnc then st
  else
    match st with
    | (RespBody.sender chunks comps, used) =>
      match e.chunkedCompression with
      | none => (RespBody.sender chunks comps, used)
      | some f =>
        (RespBody.sender chunks (comps ++ [f]), used ++ [e.name])
    | (RespBody.mem bs, used) =>
      let tested := e.compress bs
      if bs.length < tested.length then (RespBody.mem bs, used)
      else (RespBody.mem tested, used ++ [e.name])

/-- Embedding of `HttpResponse._compress_body`
(src/web/http.py:195-227).  `encodings` stands for
`Encoding.supported_encodings()` (the fixed registry, not under src/),
`acceptEnc` for the request's `Accept-Encoding` header if present.
Without that header, or with a falsy body, nothing happens (not even
the `Content-Encoding` header is set); otherwise every registry codec
is tried in order and `Content-Encoding` is set to the comma-joined
used names. -/
def _compress_body (encodings : List Encoding) (acceptEnc : Option String)
    (body : RespBody) (headers : Headers) : RespBody × Headers :=
  match acceptEnc with
  | none => (body, headers)
  | some ae =>
    if ¬ body.truthy then (body, headers)
    else
      let (body1, used) := encodings.foldl (compressOne ae) (body, [])
      (body1, ciSet headers "Content-Encoding" (", ".intercalate used))

/-- A codec whose whole-buffer compression returns its input unchanged
(equal length); exercises the size-comparison boundary of the
negotiation loop. -/
def idEncoding : Encoding :=
  { name := "id", compress := fun bs => bs, chunkedCompression := none }

/-- Modelled from the spec: `constants.SERVER_NAME` (constants.py is
not under src/), the fixed server identifier. -/
def SERVER_NAME : String := "ChristmasChallengeServer"

/-- Embedding of `HttpResponse._default_headers`
(src/web/http.py:255-264); the current GMT date string is passed in as
`now` since it is read from the clock. -/
def _default_headers (now : String) : Headers :=
  [("Date", now), ("Server", SERVER_NAME)]

/-- Embedding of `HttpResponse._send_headers` (src/web/http.py:234-242):
the emitted header lines come from the union of the default headers
with the handler-set headers, handler entries winning on collision. -/
def _send_headers (now : String) (headers : Headers) : Headers :=
  ciUnion (_default_headers now) headers

/-- The bytes a `DataSender` writes: each source chunk passed through
the attached compressors in order (modelled from the spec's
chunk-by-chunk sending). -/
def senderBytes (chunks : List (List Nat))
    (comps : List (List Nat → List Nat)) : List Nat :=
  (chunks.map (fun c => comps.foldl (fun acc f => f acc) c)).flatten

/-- What `HttpResponse.send` puts on the wire when it succeeds. -/
structure SentData where
  statusLine : String
  headers : Headers
  bodyBytes : List Nat
  deriving Repr, DecidableEq

/-- Embedding of `HttpResponse.send` (src/web/http.py:160-172) together
with `_send_status`, `_send_headers` and `_send_body`: if the body is
not `None`, `_compress_body` runs and then — unconditionally, with no
streaming branch — `Content-Length` is set to `str(len(self.body))`;
`len()` on a `DataSender` raises.  Then the status line, the merged
headers and the body bytes are written and the socket is closed. -/
def send (encodings : List Encoding) (recvHeaders : Headers)
    (code : Int) (msg : String) (headers : Headers)
    (body : Option RespBody) (now : String) : Except PyErr SentData :=
  let prepared : Except PyErr (Option RespBody × Headers) :=
    match body with
    | none => Except.ok (none, headers)
    | some b0 =>
      let (b1, h1) :=
        _compress_body encodings (ciGet recvHeaders "Accept-Encoding")
          b0 headers
      match pyLen b1 with
      | Except.error e => Except.error e
      | Except.ok n => Except.ok (some b1, ciSet h1 "Content-Length" (toString n))
  match prepared with
  | Except.error e => Except.error e
  | Except.ok (b, hdrs) =>
    Except.ok
      { statusLine := HTTP_VERSION ++ " " ++ toString code ++ " " ++ msg
        headers := _send_headers now hdrs
        bodyBytes :=
          match b with
          | none => []
          | some (RespBody.mem bs) => bs
          | some (RespBody.sender chunks comps) => senderBytes chunks comps }

end Http

namespace Api

/-! ### API handlers `_move` and `_delete` (src/web/api_handler.py)

The handlers consult the file database (storage layer, not under
src/) only through `check_file_id`, `check_folder_id`, `can_download`
and the mutating `move` / `delete_file`; the database is abstracted to
the answers of the three checks, and the mutations performed are
collected as a list of operations. -/

/-- The file-database facts the handlers branch on: which file ids and
folder ids exist, and which (session, file) pairs pass
`can_download`. -/
structure FilesDB where
  fileIds : List String
  folderIds : List String
  allowed : List (String × String)
  deriving Repr, DecidableEq

def FilesDB.check_file_id (db : FilesDB) (f : String) : Bool :=
  db.fileIds.contains f

def FilesDB.check_folder_id (db : FilesDB) (p : String) : Bool :=
  db.folderIds.contains p

def FilesDB.can_download (db : FilesDB) (s f : String) : Bool :=
  db.allowed.contains (s, f)

/-- A mutating database call issued by a handler. -/
inductive DbOp where
  | move (fileId folderId : String)
  | deleteFile (fileId : String)
  deriving Repr, DecidableEq

/-- The response fields a handler mutates: status code, status message
and the JSON body's message. -/
structure RespState where
  code : Int
  msg : String
  jsonMessage : Option String
  deriving Repr, DecidableEq

/-- Embedding of `APIHandler._response_invalid_data`
(src/web/api_handler.py:154-163). -/
def _response_invalid_data (r : RespState) (message : String) : RespState :=
  { r with code := 500, msg := "Invalid Form Data",
           jsonMessage := some message }

/-- Python `body.get(key, None)` on the JSON body dict (string-valued
fields only are relevant here). -/
def pyGet (body : List (String × String)) (k : String) : Option String :=
  (body.find? (fun p => p.1 = k)).map (fun p => p.2)

/-- Embedding of `APIHandler._move` (src/web/api_handler.py:450-484).
`session` is the result of `_check_login`'s `get_session`.  Returns
the final response state and the mutating database calls made.  Note
the source has no `return` after the failed `can_download` check. -/
def _move (session : Option String) (db : FilesDB)
    (body : List (String × String)) (resp : RespState) :
    RespState × List DbOp :=
  match session with
  | none => (_response_invalid_data resp "You need to login.", [])
  | some s =>
    match pyGet body "file_id" with
    | none => (_response_invalid_data resp "File does not exist.", [])
    | some fileId =>
      if ¬ db.check_file_id fileId then
        (_response_invalid_data resp "File does not exist.", [])
      else
        let resp1 :=
          if ¬ db.can_download s fileId then
            _response_invalid_data resp "You can't do that!"
          else resp
        match pyGet body "folder_id" with
        | none =>
          (_response_invalid_data resp1 "The target path does not exist.", [])
        | some newPath =>
          if ¬ (db.check_folder_id newPath ∨ newPath.length = 0) then
            (_response_invalid_data resp1 "The target path does not exist.", [])
          else
            (resp1, [DbOp.move fileId newPath])

/-- Embedding of `APIHandler._delete` (src/web/api_handler.py:486-511).
Note the source has no `return` after the failed `can_download`
check: `delete_file` runs regardless. -/
def _delete (session : Option String) (db : FilesDB)
    (body : List (String × String)) (resp : RespState) :
    RespState × List DbOp :=
  match session with
  | none => (_response_invalid_data resp "You need to login.", [])
  | some s =>
    match pyGet body "file_id" with
    | none => (_response_invalid_data resp "File does not exist.", [])
    | some fileId =>
      if ¬ db.check_file_id fileId then
        (_response_invalid_data resp "File does not exist.", [])
      else
        let resp1 :=
          if ¬ db.can_download s fileId then
            _response_invalid_data resp "You can't do that!"
          else resp
        (resp1, [DbOp.deleteFile fileId])

end Api

namespace Users

/-! ### `UsersTable` (src/storage/users_table.py)

The generic `Table` base class (storage/table.py, not under src/)
fronts a SQLite table; it is modelled as the list of rows in insertion
order, `select` with a `col = ?` condition as a filter with string
equality (SQLite compares TEXT bytewise), and `insert` as an append. -/

/-- One row of the `users` table. -/
structure Row where
  user_id : String
  email : String
  password : String
  deriving Repr, DecidableEq

abbrev Table := List Row

/-- `select("*", "email = ?", (email,))` restricted to its length. -/
def email_exists (t : Table) (email : String) : Bool :=
  (t.filter (fun r => r.email = email)).length > 0

/-- `select("*", "user_id = ?", (userid,))` restricted to its length. -/
def id_exists (t : Table) (userid : String) : Bool :=
  (t.filter (fun r => r.user_id = userid)).length > 0

/-- Embedding of `UsersTable.exists` (src/storage/users_table.py:25-36). -/
def existsUser (t : Table) (userid email : String) : Bool :=
  id_exists t userid || email_exists t email

/-- Embedding of `UsersTable.register` (src/storage/users_table.py:66-82):
returns the Python result and the table after the call. -/
def register (t : Table) (userid email passwd : String) : Bool × Table :=
  if existsUser t userid email then (false, t)
  else (true, t ++ [⟨userid, email, passwd⟩])

end Users

/-! ## Theorems -/

/-- Python `k in headers` agrees with a successful lookup. -/
theorem ciContains_eq_isSome (headers : Http.Headers) (k : String) :
    Http.ciContains headers k = (Http.ciGet headers k).isSome := by
  induction headers with
  | nil => rfl
  | cons p rest ih =>
    simp only [Http.ciContains, Http.ciGet, List.any_cons, List.find?_cons]
    by_cases h : Http.ciKey p.1 = Http.ciKey k
    · simp [h]
    · simp only [h, decide_False, Bool.false_or, cond_false]
      simpa [Http.ciContains, Http.ciGet] using ih

/-- C1: a request declaring `Content-Length: 5` (below the buffering
threshold) whose connection delivered only three bytes before closing:
`_read_body` succeeds and stores the three-byte body — it neither
yields the declared five bytes nor raises any error, silently
truncating the body.  The single `recv(content_length)` of
src/web/http.py:112 does not loop until the declared length is
reached. -/
theorem read_body_short_read_is_silent :
    Http._read_body [("Content-Length", "5")] [1, 2, 3]
      = Except.ok (some (Http.Body.mem [1, 2, 3]), []) ∧
    (5 : Nat) < Http.BUFFERED_CHUNK_SIZE ∧
    List.length [1, 2, 3] ≠ 5 := by
  refine ⟨rfl, by decide, by decide⟩

/-- C5 counterexample: a request with `Content-Length: 0` — the header
is present but declares zero bytes, and `_read_body` still produces a
present (empty, in-memory) body rather than leaving the body absent,
so "body present iff a Content-Length header was present and nonzero"
fails at this input. -/
theorem read_body_zero_length_cex :
    Http._read_body [("Content-Length", "0")] []
      = Except.ok (some (Http.Body.mem []), []) ∧
    (some (Http.Body.mem []) : Option Http.Body) ≠ none := by
  refine ⟨rfl, by decide⟩

/-- C5 (amended): for every successfully parsed body, the body field
is present iff a `Content-Length` header was present (even a zero
declared length yields a present, empty in-memory buffer); it is a
`DataReceiver` handle exactly for declared lengths at or above the
buffering threshold — a receiver implies a declared length at or above
the threshold, a parsed declared length at or above the threshold
yields the receiver, and a parsed declared length below the threshold
always materialises an in-memory buffer (of at most the declared
number of bytes). -/
theorem read_body_invariant (headers : Http.Headers) (sock : List Nat)
    (b : Option Http.Body) (rest : List Nat)
    (h : Http._read_body headers sock = Except.ok (b, rest)) :
    (b.isSome = Http.ciContains headers "Content-Length") ∧
    (∀ len, b = some (Http.Body.receiver len) →
      (Http.BUFFERED_CHUNK_SIZE : Int) ≤ len) ∧
    (∀ v n, Http.ciGet headers "Content-Length" = some v →
      Http.pyInt v = some n → n < (Http.BUFFERED_CHUNK_SIZE : Int) →
      ∃ bs, b = some (Http.Body.mem bs) ∧ bs.length ≤ n.toNat) ∧
    (∀ v n, Http.ciGet headers "Content-Length" = some v →
      Http.pyInt v = some n → (Http.BUFFERED_CHUNK_SIZE : Int) ≤ n →
      b = some (Http.Body.receiver n)) := by
  rcases hg : Http.ciGet headers "Content-Length" with _ | v
  · simp only [Http._read_body, hg, Except.ok.injEq, Prod.mk.injEq] at h
    obtain ⟨rfl, rfl⟩ := h
    refine ⟨by simp [ciContains_eq_isSome, hg], by simp, ?_, ?_⟩
    · intro w n hw
      exact Option.noConfusion hw
    · intro w n hw
      exact Option.noConfusion hw
  · simp only [Http._read_body, hg] at h
    rcases hp : Http.pyInt v with _ | n
    · simp only [hp] at h
      exact Except.noConfusion h
    · simp only [hp] at h
      by_cases hth : (Http.BUFFERED_CHUNK_SIZE : Int) ≤ n
      · rw [if_pos hth] at h
        simp only [Except.ok.injEq, Prod.mk.injEq] at h
        obtain ⟨rfl, rfl⟩ := h
        refine ⟨by simp [ciContains_eq_isSome, hg], ?_, ?_, ?_⟩
        · intro len hlen
          obtain rfl : len = n := by
            injection hlen with hlen2
            injection hlen2 with hlen3
            exact hlen3.symm
          exact hth
        · intro w m hw hm hlt
          cases hw
          rw [hp] at hm; cases hm
          exact absurd hth (not_le.mpr hlt)
        · intro w m hw hm hge
          cases hw
          rw [hp] at hm; cases hm
          rfl
      · rw [if_neg hth] at h
        by_cases hneg : n < 0
        · simp only [Http.recv, if_pos hneg] at h
          exact Except.noConfusion h
        · simp only [Http.recv, if_neg hneg, Except.ok.injEq,
            Prod.mk.injEq] at h
          obtain ⟨rfl, rfl⟩ := h
          refine ⟨by simp [ciContains_eq_isSome, hg], by simp, ?_, ?_⟩
          · intro w m hw hm _
            cases hw
            rw [hp] at hm; cases hm
            exact ⟨sock.take n.toNat, rfl, by simp⟩
          · intro w m hw hm hge
            cases hw
            rw [hp] at hm; cases hm
            exact absurd hge hth

/-- Witness for `read_body_invariant` at two concrete requests:
`Content-Length: 3` against a socket that delivered `[7, 8, 9]`
(in-memory), and `Content-Length: 70000` (at or above the threshold,
streaming receiver). -/
theorem read_body_invariant_witness :
    (Http._read_body [("Content-Length", "3")] [7, 8, 9]
      = Except.ok (some (Http.Body.mem [7, 8, 9]), [])) ∧
    ((some (Http.Body.mem [7, 8, 9]) : Option Http.Body).isSome
      = Http.ciContains [("Content-Length", "3")] "Content-Length") ∧
    (Http._read_body [("Content-Length", "70000")] [7]
      = Except.ok (some (Http.Body.receiver 70000), [7])) ∧
    ((some (Http.Body.receiver 70000) : Option Http.Body)
      = some (Http.Body.receiver 70000)) :=
  ⟨rfl,
   (read_body_invariant [("Content-Length", "3")] [7, 8, 9]
     (some (Http.Body.mem [7, 8, 9])) [] rfl).1,
   rfl,
   (read_body_invariant [("Content-Length", "70000")] [7]
     (some (Http.Body.receiver 70000)) [7] rfl).2.2.2
     "70000" 70000 rfl rfl (by decide)⟩

/-- C7 counterexample: `Content-Length: -1` does not parse as a
non-negative integer, yet `_read_body` raises a `ValueError` coming
from `recv(-1)` rather than the `ProtocolError` the claim requires
(`int("-1")` succeeds, so the parser's only validation passes). -/
theorem read_body_negative_length_cex :
    Http._read_body [("Content-Length", "-1")] []
      = Except.error (Http.PyErr.valueError "negative buffersize in recv") ∧
    (Http.PyErr.valueError "negative buffersize in recv").isProtocolError
      = false := by
  refine ⟨rfl, by decide⟩

/-- C7 (amended): for every request carrying a `Content-Length`
header, a value that does not parse as an integer at all is a
`ProtocolError` fatal to the exchange; a value that parses as a
negative integer is not rejected by the parser — it raises a
`ValueError` from the socket `recv` instead. -/
theorem read_body_content_length_validation (headers : Http.Headers)
    (sock : List Nat) (v : String)
    (hv : Http.ciGet headers "Content-Length" = some v) :
    (Http.pyInt v = none →
      Http._read_body headers sock
        = Except.error
            (Http.PyErr.protocolError "Content-Length must be a number!")) ∧
    (∀ n : Int, Http.pyInt v = some n → n < 0 →
      Http._read_body headers sock
        = Except.error
            (Http.PyErr.valueError "negative buffersize in recv")) := by
  constructor
  · intro hp
    simp only [Http._read_body, hv, hp]
  · intro n hp hneg
    have hth : ¬ ((Http.BUFFERED_CHUNK_SIZE : Int) ≤ n) := by
      rw [Http.BUFFERED_CHUNK_SIZE]; omega
    simp only [Http._read_body, hv, hp, if_neg hth, Http.recv, if_pos hneg]

/-- Witness for `read_body_content_length_validation`: a non-numeric
value and a negative value, both concrete. -/
theorem read_body_content_length_validation_witness :
    Http._read_body [("Content-Length", "abc")] []
      = Except.error
          (Http.PyErr.protocolError "Content-Length must be a number!") ∧
    Http._read_body [("Content-Length", "-7")] []
      = Except.error
          (Http.PyErr.valueError "negative buffersize in recv") :=
  ⟨(read_body_content_length_validation
      [("Content-Length", "abc")] [] "abc" rfl).1 rfl,
   (read_body_content_length_validation
      [("Content-Length", "-7")] [] "-7" rfl).2 (-7) rfl (by decide)⟩

/-- `maxsplit = 0` performs no split. -/
theorem splitCharsLimit_zero (sep : Char) (cs : List Char) :
    Http.splitCharsLimit sep 0 cs = [cs] := by
  cases cs <;> rfl

/-- Splitting always yields at least one field. -/
theorem splitCharsLimit_ne_nil (sep : Char) (n : Nat) (cs : List Char) :
    Http.splitCharsLimit sep n cs ≠ [] := by
  match n, cs with
  | _, [] => simp [Http.splitCharsLimit]
  | 0, c :: cs => simp [Http.splitCharsLimit]
  | Nat.succ k, c :: cs =>
    rw [Http.splitCharsLimit]
    by_cases h : c = sep
    · simp [h]
    · simp only [h, if_false]
      rcases hs : Http.splitCharsLimit sep (Nat.succ k) cs with _ | ⟨p, ps⟩
      · simp
      · simp

/-- With budget left and a separator-free first field, splitting peels
that field off. -/
theorem splitCharsLimit_sep_append (sep : Char) (n : Nat)
    (cs rest : List Char) (h : sep ∉ cs) :
    Http.splitCharsLimit sep (n + 1) (cs ++ sep :: rest)
      = cs :: Http.splitCharsLimit sep n rest := by
  induction cs with
  | nil => simp [Http.splitCharsLimit]
  | cons c cs ih =>
    have hc : ¬ (c = sep) := fun hcc => h (by simp [hcc])
    have hmem : sep ∉ cs := fun hm => h (List.mem_cons_of_mem _ hm)
    rw [List.cons_append, Http.splitCharsLimit]
    simp only [hc, if_false]
    rw [ih hmem]

/-- With enough split budget, the first field is everything up to the
first separator. -/
theorem headD_splitCharsLimit (sep : Char) (n : Nat) (cs : List Char)
    (h : cs.length ≤ n) :
    (Http.splitCharsLimit sep n cs).headD []
      = cs.takeWhile (fun c => c != sep) := by
  induction cs generalizing n with
  | nil => cases n <;> rfl
  | cons c cs ih =>
    match n with
    | Nat.succ k =>
      rw [Http.splitCharsLimit]
      by_cases hc : c = sep
      · simp [hc]
      · simp only [hc, if_false]
        have hlen : cs.length ≤ Nat.succ k := by
          simp at h; omega
        have hd := ih (Nat.succ k) hlen
        rcases hs : Http.splitCharsLimit sep (Nat.succ k) cs with _ | ⟨p, ps⟩
        · exact absurd hs (splitCharsLimit_ne_nil sep _ cs)
        · rw [hs] at hd
          simp only [List.headD_cons] at hd
          simp [List.takeWhile_cons, hc, hd]

theorem string_mk_toList (s : String) : String.mk s.toList = s := rfl

/-- A status line assembled from three space-free tokens splits back
into exactly those tokens. -/
theorem pySplit2_three (m t v : List Char) (hm : ' ' ∉ m) (ht : ' ' ∉ t) :
    Http.splitCharsLimit ' ' 2 (m ++ ' ' :: (t ++ ' ' :: v)) = [m, t, v] := by
  have h1 := splitCharsLimit_sep_append ' ' 1 m (t ++ ' ' :: v) hm
  have h2 := splitCharsLimit_sep_append ' ' 0 t v ht
  rw [splitCharsLimit_zero] at h2
  norm_num at h1 h2
  rw [h1, h2]

theorem pySplitSpace2_concat (m t v : String)
    (hm : ' ' ∉ m.toList) (ht : ' ' ∉ t.toList) :
    Http.pySplitSpace2 (m ++ " " ++ t ++ " " ++ v) = [m, t, v] := by
  have hlist : (m ++ " " ++ t ++ " " ++ v).toList
      = m.toList ++ ' ' :: (t.toList ++ ' ' :: v.toList) := by
    simp [String.toList, String.data_append]
  rw [Http.pySplitSpace2, hlist,
    pySplit2_three m.toList t.toList v.toList hm ht]
  simp [string_mk_toList]

/-- C6: a status line that does not split into exactly three
space-separated tokens, or whose third token is not the supported
version (case-insensitively), or whose first token is not in the verb
set, makes `_read_status` raise a `ProtocolError`; no `StatusLine`
value is produced (the result is `Except.error`, which carries no
partially-constructed request). -/
theorem read_status_rejects (line : String)
    (h : (Http.pySplitSpace2 line).length ≠ 3 ∨
      ∀ m t v, Http.pySplitSpace2 line = [m, t, v] →
        (Http.pyUpper v ≠ Http.HTTP_VERSION
          ∨ Http.WebMethod.fromString m = none)) :
    ∃ msg, Http._read_status line
      = Except.error (Http.PyErr.protocolError msg) := by
  rcases hs : Http.pySplitSpace2 line
    with _ | ⟨a, _ | ⟨b, _ | ⟨c, _ | ⟨d, rest⟩⟩⟩⟩
  · refine ⟨"The status line needs three arguments!", ?_⟩
    simp only [Http._read_status, hs]
  · refine ⟨"The status line needs three arguments!", ?_⟩
    simp only [Http._read_status, hs]
  · refine ⟨"The status line needs three arguments!", ?_⟩
    simp only [Http._read_status, hs]
  · rw [hs] at h
    rcases h with h | h
    · simp at h
    · rcases h a b c rfl with hv | hm
      · refine ⟨"Unknown version " ++ c ++ " could not be recognized!", ?_⟩
        simp only [Http._read_status, hs]
        rw [if_pos hv]
      · by_cases hcond : Http.pyUpper c ≠ Http.HTTP_VERSION
        · refine ⟨"Unknown version " ++ c ++ " could not be recognized!", ?_⟩
          simp only [Http._read_status, hs]
          rw [if_pos hcond]
        · refine ⟨a ++ " is not a valid WebMethod", ?_⟩
          simp only [Http._read_status, hs]
          rw [if_neg hcond]
          simp only [hm]
  · refine ⟨"The status line needs three arguments!", ?_⟩
    simp only [Http._read_status, hs]

/-- Witness for `read_status_rejects`: a two-token line, a wrong
version, and an unknown verb, all concrete. -/
theorem read_status_rejects_witness :
    (∃ msg, Http._read_status "GET /x"
      = Except.error (Http.PyErr.protocolError msg)) ∧
    (∃ msg, Http._read_status "GET / FTP/1.0"
      = Except.error (Http.PyErr.protocolError msg)) ∧
    (∃ msg, Http._read_status "BREW / HTTP/1.1"
      = Except.error (Http.PyErr.protocolError msg)) := by
  refine ⟨read_status_rejects "GET /x" (Or.inl (by decide)),
    read_status_rejects "GET / FTP/1.0" (Or.inr ?_),
    read_status_rejects "BREW / HTTP/1.1" (Or.inr ?_)⟩
  · intro m t v heq
    rw [show Http.pySplitSpace2 "GET / FTP/1.0"
      = ["GET", "/", "FTP/1.0"] from rfl] at heq
    injection heq with h1 h2
    injection h2 with h3 h4
    injection h4 with h5 h6
    subst h1; subst h3; subst h5
    left; decide
  · intro m t v heq
    rw [show Http.pySplitSpace2 "BREW / HTTP/1.1"
      = ["BREW", "/", "HTTP/1.1"] from rfl] at heq
    injection heq with h1 h2
    injection h2 with h3 h4
    injection h4 with h5 h6
    subst h1; subst h3; subst h5
    right; decide

/-- C8: a status line assembled from a recognized verb, a space-free
request-target and a token that uppercases to the supported version
parses successfully into exactly that method, with the path equal to
the request-target truncated at the first `?` and percent-decoded. -/
theorem read_status_wellformed (mTok target ver : String)
    (meth : Http.WebMethod)
    (hm : Http.WebMethod.fromString mTok = some meth)
    (hsp : ' ' ∉ mTok.toList) (ht : ' ' ∉ target.toList)
    (hv : Http.pyUpper ver = Http.HTTP_VERSION) :
    Http._read_status (mTok ++ " " ++ target ++ " " ++ ver)
      = Except.ok ⟨meth, Http.unquote
          (String.mk (target.toList.takeWhile (fun c => c != '?')))⟩ := by
  have hsplit := pySplitSpace2_concat mTok target ver hsp ht
  simp only [Http._read_status, hsplit]
  rw [if_neg (by simp [hv])]
  simp only [hm]
  have hq : (Http.pySplitQ target).headD ""
      = String.mk (target.toList.takeWhile (fun c => c != '?')) := by
    rw [Http.pySplitQ]
    rcases hs : Http.splitCharsLimit '?' target.toList.length target.toList
      with _ | ⟨p, ps⟩
    · exact absurd hs (splitCharsLimit_ne_nil '?' _ _)
    · have hd := headD_splitCharsLimit '?' target.toList.length
        target.toList (le_refl _)
      rw [hs] at hd
      simp only [List.headD_cons] at hd
      simp [hd]
  rw [hq]

/-- Witness for `read_status_wellformed`: the spec's own example,
`GET /a/v1/user?x=1 HTTP/1.1` → method `GET`, path `/a/v1/user`. -/
theorem read_status_wellformed_witness :
    Http._read_status "GET /a/v1/user?x=1 HTTP/1.1"
      = Except.ok ⟨Http.WebMethod.GET, "/a/v1/user"⟩ := by
  have h := read_status_wellformed "GET" "/a/v1/user?x=1" "HTTP/1.1"
    Http.WebMethod.GET rfl (by decide) (by decide) rfl
  exact h

/-- C2 counterexample: a codec whose whole-buffer compression returns
an equal-length result (here, the identity on `[7]`) — the negotiation
loop replaces the body with the compressed result and records the
codec name even though the compressed size is not strictly smaller
than the current size: the loop rejects only strictly larger results
(`if len(tested_encoding) > len(self.body): continue`,
src/web/http.py:219). -/
theorem compress_body_records_equal_size_cex :
    Http._compress_body [Http.idEncoding] (some "id")
        (Http.RespBody.mem [7]) []
      = (Http.RespBody.mem [7], [("Content-Encoding", "id")]) ∧
    ¬ ((Http.idEncoding.compress [7]).length < ([7] : List Nat).length) :=
  ⟨rfl, by decide⟩

/-- C2 (amended): for every codec tried on an in-memory body during
negotiation, the body is replaced by the compressed result — and the
codec name recorded — precisely when the codec is accepted by the
client and the compressed size is not larger (less than or equal)
than the current body size; a strictly larger result is discarded and
the codec is not recorded. -/
theorem compress_mem_accepts_non_larger (e : Http.Encoding)
    (bs : List Nat) (used : List String) (acceptEnc : String) :
    Http.compressOne acceptEnc (Http.RespBody.mem bs, used) e =
      if Http.pyInStr e.name acceptEnc = true
          ∧ (e.compress bs).length ≤ bs.length
      then (Http.RespBody.mem (e.compress bs), used ++ [e.name])
      else (Http.RespBody.mem bs, used) := by
  by_cases hin : Http.pyInStr e.name acceptEnc = true
  · by_cases hle : (e.compress bs).length ≤ bs.length
    · simp [Http.compressOne, hin, hle, not_lt.mpr hle]
    · simp [Http.compressOne, hin, hle, not_le.mp hle]
  · simp [Http.compressOne, hin]

/-- C3: `HttpResponse.send` sets `Content-Length` for every body that
is not `None` (src/web/http.py:164-166), with no branch omitting it
for a streaming body.  For an in-memory body the value is the exact
byte length; for a `DataSender` body the claim's promised omission
does not happen — `str(len(self.body))` is evaluated on the sender,
which under the spec's own model of a streaming body (its length "is
not predetermined", so it supports no `len()`) aborts the send with a
`TypeError` before anything reaches the wire. -/
theorem send_content_length_never_omitted :
    Http.send [] [] 200 "OK" [] (some (Http.RespBody.mem [1, 2, 3])) "now"
      = Except.ok ⟨"HTTP/1.1 200 OK",
          [("Date", "now"), ("Server", Http.SERVER_NAME),
           ("Content-Length", "3")], [1, 2, 3]⟩ ∧
    Http.send [] [] 200 "OK" [] (some (Http.RespBody.sender [] [])) "now"
      = Except.error
          (Http.PyErr.typeError "object of type DataSender has no len") :=
  ⟨rfl, rfl⟩

/-- C10: `UsersTable.register` refuses (returns `False`, table
unchanged) exactly when some existing row has the requested userid or
the requested email, and otherwise appends exactly the one new row and
returns `True`. -/
theorem register_insert_or_reject (t : Users.Table)
    (uid em pw : String) :
    (((∃ r ∈ t, r.user_id = uid) ∨ (∃ r ∈ t, r.email = em)) →
      Users.register t uid em pw = (false, t)) ∧
    (¬ ((∃ r ∈ t, r.user_id = uid) ∨ (∃ r ∈ t, r.email = em)) →
      Users.register t uid em pw = (true, t ++ [⟨uid, em, pw⟩])) := by
  have hex : Users.existsUser t uid em = true ↔
      ((∃ r ∈ t, r.user_id = uid) ∨ (∃ r ∈ t, r.email = em)) := by
    simp [Users.existsUser, Users.id_exists, Users.email_exists,
      List.length_pos, List.filter_eq_nil_iff]
  constructor
  · intro h
    rw [Users.register, if_pos (hex.mpr h)]
  · intro h
    rw [Users.register, if_neg (fun hc => h (hex.mp hc))]

/-- Witness for `register_insert_or_reject`: a taken userid is
refused; a fresh pair is inserted. -/
theorem register_insert_or_reject_witness :
    Users.register [⟨"a", "a@x", "h1"⟩] "a" "b@x" "h2"
      = (false, [⟨"a", "a@x", "h1"⟩]) ∧
    Users.register [⟨"a", "a@x", "h1"⟩] "b" "b@x" "h2"
      = (true, [⟨"a", "a@x", "h1"⟩, ⟨"b", "b@x", "h2"⟩]) :=
  ⟨(register_insert_or_reject [⟨"a", "a@x", "h1"⟩] "a" "b@x" "h2").1
     (Or.inl ⟨⟨"a", "a@x", "h1"⟩, by simp⟩),
   (register_insert_or_reject [⟨"a", "a@x", "h1"⟩] "b" "b@x" "h2").2
     (by simp)⟩

/-- Lookup after a case-insensitive insert: the inserted key (in any
case) now maps to the new value; other keys are untouched. -/
theorem ciGet_ciSet (m : Http.Headers) (k v q : String) :
    Http.ciGet (Http.ciSet m k v) q
      = if Http.ciKey q = Http.ciKey k then some v else Http.ciGet m q := by
  induction m with
  | nil =>
    by_cases h : Http.ciKey q = Http.ciKey k
    · have hk : Http.ciKey k = Http.ciKey q := h.symm
      rw [if_pos h]
      simp [Http.ciGet, Http.ciSet, List.find?_cons, hk]
    · have hk : ¬ (Http.ciKey k = Http.ciKey q) := fun hc => h hc.symm
      rw [if_neg h]
      simp [Http.ciGet, Http.ciSet, List.find?_cons, hk]
  | cons p rest ih =>
    by_cases hpk : Http.ciKey p.1 = Http.ciKey k
    · simp only [Http.ciSet, hpk, if_true]
      by_cases hqk : Http.ciKey q = Http.ciKey k
      · have hk : Http.ciKey k = Http.ciKey q := hqk.symm
        rw [if_pos hqk]
        simp [Http.ciGet, List.find?_cons, hk]
      · have hk : ¬ (Http.ciKey k = Http.ciKey q) := fun hc => hqk hc.symm
        have hpq : ¬ (Http.ciKey p.1 = Http.ciKey q) := by
          rw [hpk]; exact hk
        rw [if_neg hqk]
        simp [Http.ciGet, List.find?_cons, hk, hpq]
    · simp only [Http.ciSet, hpk, if_false]
      by_cases hpq : Http.ciKey p.1 = Http.ciKey q
      · have hqk : ¬ (Http.ciKey q = Http.ciKey k) := by
          rw [← hpq]; exact hpk
        rw [if_neg hqk]
        simp [Http.ciGet, List.find?_cons, hpq]
      · have hg : Http.ciGet (p :: rest) q = Http.ciGet rest q := by
          simp [Http.ciGet, List.find?_cons, hpq]
        have hh : Http.ciGet (p :: Http.ciSet rest k v) q
            = Http.ciGet (Http.ciSet rest k v) q := by
          simp [Http.ciGet, List.find?_cons, hpq]
        rw [hh, ih, hg]

/-- Entries of `ciSet m k v` come from the new pair or from `m`. -/
theorem mem_ciSet (m : Http.Headers) (k v : String)
    (q : String × String) (h : q ∈ Http.ciSet m k v) :
    q = (k, v) ∨ q ∈ m := by
  induction m with
  | nil =>
    simp [Http.ciSet] at h
    exact Or.inl h
  | cons p rest ih =>
    by_cases hpk : Http.ciKey p.1 = Http.ciKey k
    · simp only [Http.ciSet, hpk, if_true] at h
      rcases List.mem_cons.mp h with h1 | h1
      · exact Or.inl h1
      · exact Or.inr (List.mem_cons_of_mem _ h1)
    · simp only [Http.ciSet, hpk, if_false] at h
      rcases List.mem_cons.mp h with h1 | h1
      · exact Or.inr (h1 ▸ List.mem_cons_self _ _)
      · rcases ih h1 with h2 | h2
        · exact Or.inl h2
        · exact Or.inr (List.mem_cons_of_mem _ h2)

/-- `ciSet` preserves well-formedness of a header map. -/
theorem ciWF_ciSet (m : Http.Headers) (k v : String)
    (h : Http.ciWF m) : Http.ciWF (Http.ciSet m k v) := by
  induction m with
  | nil =>
    simp [Http.ciSet, Http.ciWF]
  | cons p rest ih =>
    rw [Http.ciWF, List.pairwise_cons] at h
    obtain ⟨hp, hrest⟩ := h
    by_cases hpk : Http.ciKey p.1 = Http.ciKey k
    · simp only [Http.ciSet, hpk, if_true]
      rw [Http.ciWF, List.pairwise_cons]
      refine ⟨fun q hq => ?_, hrest⟩
      have := hp q hq
      rw [hpk] at this
      exact this
    · simp only [Http.ciSet, hpk, if_false]
      rw [Http.ciWF, List.pairwise_cons]
      refine ⟨fun q hq => ?_, ih hrest⟩
      rcases mem_ciSet rest k v q hq with h1 | h1
      · rw [h1]; exact hpk
      · exact hp q h1

/-- A lookup misses when no entry matches case-insensitively. -/
theorem ciGet_eq_none (r : Http.Headers) (q : String)
    (h : ∀ x ∈ r, ¬ (Http.ciKey x.1 = Http.ciKey q)) :
    Http.ciGet r q = none := by
  rw [Http.ciGet, List.find?_eq_none.mpr]
  · rfl
  · intro x hx
    simpa using h x hx

/-- A key absent from the right map falls through the union to the
left map. -/
theorem ciGet_ciUnion_none (l r : Http.Headers) (q : String)
    (h : Http.ciGet r q = none) :
    Http.ciGet (Http.ciUnion l r) q = Http.ciGet l q := by
  induction r generalizing l with
  | nil => rfl
  | cons p rest ih =>
    by_cases hpq : Http.ciKey p.1 = Http.ciKey q
    · simp [Http.ciGet, List.find?_cons, hpq] at h
    · have hrest : Http.ciGet rest q = none := by
        simpa [Http.ciGet, List.find?_cons, hpq] using h
      have step : Http.ciUnion l (p :: rest)
          = Http.ciUnion (Http.ciSet l p.1 p.2) rest := rfl
      rw [step, ih _ hrest, ciGet_ciSet]
      rw [if_neg (fun hc => hpq hc.symm)]

/-- A key present in a well-formed right map wins in the union. -/
theorem ciGet_ciUnion_some (l r : Http.Headers) (q v : String)
    (hr : Http.ciWF r) (h : Http.ciGet r q = some v) :
    Http.ciGet (Http.ciUnion l r) q = some v := by
  induction r generalizing l with
  | nil => cases h
  | cons p rest ih =>
    rw [Http.ciWF, List.pairwise_cons] at hr
    obtain ⟨hp, hrest⟩ := hr
    have step : Http.ciUnion l (p :: rest)
        = Http.ciUnion (Http.ciSet l p.1 p.2) rest := rfl
    by_cases hpq : Http.ciKey p.1 = Http.ciKey q
    · have hv : v = p.2 := by
        simp [Http.ciGet, List.find?_cons, hpq] at h
        exact h.symm
      have hnone : Http.ciGet rest q = none := by
        refine ciGet_eq_none rest q (fun x hx hc => ?_)
        exact hp x hx (hpq.trans hc.symm)
      rw [step, ciGet_ciUnion_none _ _ _ hnone, ciGet_ciSet,
        if_pos hpq.symm, hv]
    · have hrq : Http.ciGet rest q = some v := by
        simpa [Http.ciGet, List.find?_cons, hpq] using h
      rw [step]
      exact ih _ hrest hrq

/-- The union of a well-formed left map with any right map is
well-formed. -/
theorem ciWF_ciUnion (l r : Http.Headers) (h : Http.ciWF l) :
    Http.ciWF (Http.ciUnion l r) := by
  induction r generalizing l with
  | nil => exact h
  | cons p rest ih =>
    have step : Http.ciUnion l (p :: rest)
        = Http.ciUnion (Http.ciSet l p.1 p.2) rest := rfl
    rw [step]
    exact ih _ (ciWF_ciSet l p.1 p.2 h)

/-- In a well-formed map, a key that resolves appears exactly once
(counting case-insensitively). -/
theorem countP_eq_one_of_ciGet (m : Http.Headers) (q v : String)
    (hwf : Http.ciWF m) (h : Http.ciGet m q = some v) :
    m.countP (fun p => decide (Http.ciKey p.1 = Http.ciKey q)) = 1 := by
  induction m with
  | nil => cases h
  | cons p rest ih =>
    rw [Http.ciWF, List.pairwise_cons] at hwf
    obtain ⟨hp, hrest⟩ := hwf
    by_cases hpq : Http.ciKey p.1 = Http.ciKey q
    · rw [List.countP_cons]
      have hzero : rest.countP
          (fun p => decide (Http.ciKey p.1 = Http.ciKey q)) = 0 := by
        rw [List.countP_eq_zero]
        intro x hx
        simpa using fun hc => hp x hx (hpq.trans hc.symm)
      simp [hzero, hpq]
    · rw [List.countP_cons]
      have hrq : Http.ciGet rest q = some v := by
        simpa [Http.ciGet, List.find?_cons, hpq] using h
      simp [hpq, ih hrest hrq]

/-- C9: the headers emitted by `_send_headers` are the merge of the
defaults (`Date` with the current GMT date, `Server`) with the
handler-set headers, the handler winning on case-insensitive
collision: `Date` and `Server` each resolve to the handler value when
the handler set one (in any case) and to the default otherwise, each
appears exactly once, and every handler-set header survives with its
value. -/
theorem send_headers_defaults (now : String) (hdrs : Http.Headers)
    (h : Http.ciWF hdrs) :
    (Http.ciGet (Http._send_headers now hdrs) "Date"
      = some ((Http.ciGet hdrs "Date").getD now)) ∧
    (Http.ciGet (Http._send_headers now hdrs) "Server"
      = some ((Http.ciGet hdrs "Server").getD Http.SERVER_NAME)) ∧
    ((Http._send_headers now hdrs).countP
      (fun p => decide (Http.ciKey p.1 = Http.ciKey "Date")) = 1) ∧
    ((Http._send_headers now hdrs).countP
      (fun p => decide (Http.ciKey p.1 = Http.ciKey "Server")) = 1) ∧
    (∀ k v, Http.ciGet hdrs k = some v →
      Http.ciGet (Http._send_headers now hdrs) k = some v) := by
  have hdate : Http.ciGet (Http._send_headers now hdrs) "Date"
      = some ((Http.ciGet hdrs "Date").getD now) := by
    rcases hd : Http.ciGet hdrs "Date" with _ | w
    · rw [Http._send_headers, ciGet_ciUnion_none _ _ _ hd]
      rfl
    · rw [Http._send_headers, ciGet_ciUnion_some _ _ _ _ h hd]
      rfl
  have hserver : Http.ciGet (Http._send_headers now hdrs) "Server"
      = some ((Http.ciGet hdrs "Server").getD Http.SERVER_NAME) := by
    rcases hd : Http.ciGet hdrs "Server" with _ | w
    · rw [Http._send_headers, ciGet_ciUnion_none _ _ _ hd]
      rfl
    · rw [Http._send_headers, ciGet_ciUnion_some _ _ _ _ h hd]
      rfl
  have hwf : Http.ciWF (Http._send_headers now hdrs) := by
    rw [Http._send_headers]
    refine ciWF_ciUnion _ _ ?_
    rw [Http.ciWF]
    refine List.pairwise_cons.mpr ⟨?_, List.pairwise_singleton _ _⟩
    intro q hq
    rw [List.mem_singleton] at hq
    rw [hq]
    exact (by decide : Http.ciKey "Date" ≠ Http.ciKey "Server")
  refine ⟨hdate, hserver, ?_, ?_, ?_⟩
  · exact countP_eq_one_of_ciGet _ "Date" _ hwf hdate
  · exact countP_eq_one_of_ciGet _ "Server" _ hwf hserver
  · intro k v hv
    rw [Http._send_headers]
    exact ciGet_ciUnion_some _ _ _ _ h hv

/-- Witness for `send_headers_defaults`: a handler map overriding
`Date` as `DATE`. -/
theorem send_headers_defaults_witness :
    Http.ciWF [("DATE", "d"), ("X", "y")] ∧
    Http.ciGet (Http._send_headers "now" [("DATE", "d"), ("X", "y")]) "Date"
      = some ((Http.ciGet [("DATE", "d"), ("X", "y")] "Date").getD "now") :=
  ⟨by decide, (send_headers_defaults "now" [("DATE", "d"), ("X", "y")]
    (by decide)).1⟩

/-- C4 counterexample: in `_move`, a logged-in request for an existing
file whose permission check fails and whose JSON body carries no
`folder_id`: the handler continues past the failed check (no early
return) but the folder validation then returns before `move`, so no
mutating database operation is executed — refuting the claim that the
mutating operation is *always* still executed when the file exists and
the permission check fails (the final response also shows the folder
error, overwriting the access-denied message). -/
theorem move_denied_missing_folder_cex :
    Api._move (some "s") ⟨["f"], [], []⟩ [("file_id", "f")]
        ⟨200, "OK", none⟩
      = (⟨500, "Invalid Form Data",
          some "The target path does not exist."⟩, []) ∧
    (⟨["f"], [], []⟩ : Api.FilesDB).check_file_id "f" = true ∧
    (⟨["f"], [], []⟩ : Api.FilesDB).can_download "s" "f" = false := by
  refine ⟨rfl, rfl, rfl⟩

/-- C4 (amended): when the file exists but `can_download` fails, both
handlers set the access-denied error response and do not return early;
`_delete` then always executes the deletion, while `_move` executes
the move exactly when the remaining target-folder validation passes:
if the validation passes the move runs, and if the `folder_id` is
missing from the body, or present but neither an existing folder nor
empty, no mutating operation runs and the response is overwritten
with the folder error. -/
theorem move_delete_after_denied (s : String) (db : Api.FilesDB)
    (body : List (String × String)) (resp : Api.RespState)
    (fileId : String)
    (hf : Api.pyGet body "file_id" = some fileId)
    (hex : db.check_file_id fileId = true)
    (hperm : db.can_download s fileId = false) :
    (Api._delete (some s) db body resp
      = (Api._response_invalid_data resp "You can't do that!",
         [Api.DbOp.deleteFile fileId])) ∧
    (∀ p, Api.pyGet body "folder_id" = some p →
      (db.check_folder_id p = true ∨ p.length = 0) →
      Api._move (some s) db body resp
        = (Api._response_invalid_data resp "You can't do that!",
           [Api.DbOp.move fileId p])) ∧
    (Api.pyGet body "folder_id" = none →
      Api._move (some s) db body resp
        = (Api._response_invalid_data resp
             "The target path does not exist.", [])) ∧
    (∀ p, Api.pyGet body "folder_id" = some p →
      ¬ (db.check_folder_id p = true ∨ p.length = 0) →
      Api._move (some s) db body resp
        = (Api._response_invalid_data resp
             "The target path does not exist.", [])) := by
  refine ⟨?_, ?_, ?_, ?_⟩
  · simp only [Api._delete, hf, hex, hperm]
    simp
  · intro p hp hfold
    simp only [Api._move, hf, hp, hex, hperm]
    simp [hfold]
  · intro hp
    simp only [Api._move, hf, hp, hex, hperm]
    simp [Api._response_invalid_data]
  · intro p hp hbad
    simp only [Api._move, hf, hp, hex, hperm]
    simp [hbad, Api._response_invalid_data]

/-- Witness for `move_delete_after_denied`: existing file `f`, no
download permission — with valid folder `d` the delete and the move
both still run; with the folder missing from the body, and with a
nonexistent nonempty folder `x`, the move does not run. -/
theorem move_delete_after_denied_witness :
    (Api._delete (some "s") ⟨["f"], ["d"], []⟩
        [("file_id", "f"), ("folder_id", "d")] ⟨200, "OK", none⟩
      = (⟨500, "Invalid Form Data", some "You can't do that!"⟩,
         [Api.DbOp.deleteFile "f"])) ∧
    (Api._move (some "s") ⟨["f"], ["d"], []⟩
        [("file_id", "f"), ("folder_id", "d")] ⟨200, "OK", none⟩
      = (⟨500, "Invalid Form Data", some "You can't do that!"⟩,
         [Api.DbOp.move "f" "d"])) ∧
    (Api._move (some "s") ⟨["f"], ["d"], []⟩
        [("file_id", "f")] ⟨200, "OK", none⟩
      = (⟨500, "Invalid Form Data",
          some "The target path does not exist."⟩, [])) ∧
    (Api._move (some "s") ⟨["f"], ["d"], []⟩
        [("file_id", "f"), ("folder_id", "x")] ⟨200, "OK", none⟩
      = (⟨500, "Invalid Form Data",
          some "The target path does not exist."⟩, [])) := by
  have h := move_delete_after_denied "s" ⟨["f"], ["d"], []⟩
    [("file_id", "f"), ("folder_id", "d")] ⟨200, "OK", none⟩ "f"
    rfl rfl rfl
  have hmiss := move_delete_after_denied "s" ⟨["f"], ["d"], []⟩
    [("file_id", "f")] ⟨200, "OK", none⟩ "f" rfl rfl rfl
  have hbad := move_delete_after_denied "s" ⟨["f"], ["d"], []⟩
    [("file_id", "f"), ("folder_id", "x")] ⟨200, "OK", none⟩ "f"
    rfl rfl rfl
  exact ⟨h.1, h.2.1 "d" rfl (Or.inl rfl), hmiss.2.2.1 rfl,
    hbad.2.2.2 "x" rfl (by decide)⟩
